import Mathlib

/-!
Verification of the live voice session orchestrator of the gemini-generic-voice-form
repository: a shallow embedding, in Lean, of the pure state-transforming core of
`voice_flow/live_consumer.py` (tool-call handling, silence monitoring, completion
persistence), `voice_flow/tasks.py` (webhook delivery, retry schedule, HMAC
signature) and `voice_flow/models.py` (session record updates), together with
theorems checking the repository's specification against that embedding.

Conventions of the embedding:
* Python dicts that hold JSON-like data become insertion-ordered association
  lists (`Dict`), with `dictInsert` mirroring `d[k] = v` (replace in place, else
  append) and `dictUpdate` mirroring `d.update(p)`.
* JSON values become the inductive `JVal`.  Python floats do not occur in the
  modelled values (the collected payloads carry strings, ints, bools, nulls and
  nested containers).
* Monotonic clock readings are modelled in whole milliseconds as `Nat`; the code
  computes `int((now - then) * 1000)` from float seconds, which is this number
  whenever `now ≥ then`.
* `json.loads` is an external library function and is passed in as an abstract
  argument `jsonLoads : String → Option JVal`, `none` modelling a parse error
  (the `except` branch of the source).
-/

/-- JSON-like values as they flow through the consumer: tool-call arguments,
collected field values, webhook payload entries. -/
inductive JVal where
  | jnull
  | jbool (b : Bool)
  | jint (n : Int)
  | jstr (s : String)
  | jarr (xs : List JVal)
  | jobj (fields : List (String × JVal))

/-- A Python dict with string keys, as an insertion-ordered association list. -/
abbrev Dict := List (String × JVal)

/-- `d.get(k)`: the value stored at `k`, if any. -/
def dictGet (d : Dict) (k : String) : Option JVal :=
  match d with
  | [] => none
  | (k', v) :: rest => if k' = k then some v else dictGet rest k

/-- `k in d`. -/
def dictHasKey (d : Dict) (k : String) : Bool := (dictGet d k).isSome

/-- `d[k] = v`: replace the binding in place when the key exists (Python dicts
keep the original insertion position on overwrite), append otherwise. -/
def dictInsert (d : Dict) (k : String) (v : JVal) : Dict :=
  match d with
  | [] => [(k, v)]
  | (k', v') :: rest => if k' = k then (k, v) :: rest else (k', v') :: dictInsert rest k v

/-- `d.update(p)`: assign every pair of `p`, in order, into `d`. -/
def dictUpdate (d p : Dict) : Dict := p.foldl (fun acc kv => dictInsert acc kv.1 kv.2) d

/-- `list(d.keys())`. -/
def dictKeys (d : Dict) : List String := d.map Prod.fst

/-- `list(d.values())`. -/
def dictValues (d : Dict) : List JVal := d.map Prod.snd

/-- `v is None`. -/
def isNull : JVal → Bool
  | .jnull => true
  | _ => false

/-- Python truthiness of a JSON-like value: `None`, `False`, `0`, `""`, `[]`
and the empty dict are falsy, everything else truthy. -/
def jTruthy : JVal → Bool
  | .jnull => false
  | .jbool b => b
  | .jint n => if n = 0 then false else true
  | .jstr s => if s = "" then false else true
  | .jarr [] => false
  | .jarr (_ :: _) => true
  | .jobj [] => false
  | .jobj (_ :: _) => true

/-- Python `x or dflt` applied to an optional lookup result: the looked-up value
when present and truthy, the default otherwise (`None` is falsy). -/
def pyOr (x : Option JVal) (dflt : JVal) : JVal :=
  match x with
  | some v => if jTruthy v then v else dflt
  | none => dflt

/-- The dict comprehension at `live_consumer.py:456`:
lower-cased keys, later duplicates overwriting earlier ones. -/
def lowerKeyMap (m : Dict) : Dict :=
  m.foldl (fun acc kv => dictInsert acc kv.1.toLower kv.2) []

/-- `LiveAudioConsumer._get_ci` (`live_consumer.py:448-463`): first an exact-key
pass that returns the stored value as soon as a key is present (even when that
value is `None`, encoded `some .jnull`), then a case-insensitive pass that skips
`None` values. -/
def get_ci (m : Dict) (ks : List String) : Option JVal :=
  match ks.findSome? (fun k => if dictHasKey m k then some ((dictGet m k).getD .jnull) else none) with
  | some v => some v
  | none =>
    let lm := lowerKeyMap m
    ks.findSome? (fun k =>
      match dictGet lm k.toLower with
      | some v => if isNull v then none else some v
      | none => none)

/-- In-memory per-session state of `LiveAudioConsumer` touched by tool calls:
`self.collected_data`, the `self._summary_event` one-shot, and whether
`handle_completion` was requested by a `complete_form` call. -/
structure ConsumerMem where
  collected_data : Dict
  summary_event : Bool
  completion_requested : Bool

/-- State at `connect`: empty dict, event unset. -/
def initConsumerMem : ConsumerMem :=
  { collected_data := [], summary_event := false, completion_requested := false }

/-- Messages the tool-call handler sends to the browser. -/
inductive ClientEvent where
  | progress (current_field total_fields percentage : Nat)
  | summary_submitted (summary : JVal) (extracted_fields : Dict)

/-- `len([v for v in d.values() if v is not None])`. -/
def countNonNull (d : Dict) : Nat := (dictValues d).filter (fun v => !isNull v) |>.length

/-- The percentage sent with a progress event (`live_consumer.py:364`):
`int(100 * countNonNull / max(total_fields, 1))`. -/
def progressPercentage (n total_fields : Nat) : Nat := 100 * n / max total_fields 1

/-- The field name a `save_field` call acts on (`live_consumer.py:355-357`):
`_get_ci(args, 'field_name', 'fieldName', 'name')`, used only when truthy.  The
declared tool schema types `field_name` as a JSON string, so the embedding keeps
dict keys as strings and reads only string-valued names. -/
def extract_field_name (args : Dict) : Option String :=
  match get_ci args ["field_name", "fieldName", "name"] with
  | some (.jstr s) => if s = "" then none else some s
  | _ => none

/-- `value = args.get('value')`; a missing key yields Python `None`. -/
def saveValue (args : Dict) : JVal := (dictGet args "value").getD .jnull

/-- The `save_field` branch (`live_consumer.py:354-365`): upsert the value under
the extracted field name — with no check of the name against the form schema —
and emit a progress event. -/
def handleSaveField (total_fields : Nat) (mem : ConsumerMem) (args : Dict) :
    ConsumerMem × List ClientEvent :=
  match extract_field_name args with
  | some s =>
    let d := dictInsert mem.collected_data s (saveValue args)
    ({ mem with collected_data := d },
     [.progress (countNonNull d) total_fields (progressPercentage (countNonNull d) total_fields)])
  | none => (mem, [])

/-- `summary_text` as read at `live_consumer.py:368`. -/
def summary_text_of (args : Dict) : JVal :=
  pyOr (get_ci args ["summary_text", "summaryText", "summary"]) (.jstr "")

/-- `function_call_json_text` as read at `live_consumer.py:369`: defaulted to
the two-character string holding an empty JSON object when absent or falsy. -/
def fc_json_of (args : Dict) : JVal :=
  pyOr (get_ci args ["function_call_json_text", "functionCallJsonText", "json", "payload"])
    (.jstr "\x7b\x7d")

/-- The `submit_form_summary` branch (`live_consumer.py:367-384`): parse
`function_call_json_text`; when it parses to a dict, `collected_data.update(...)`
with it; any parse failure (or a non-string argument, which raises `TypeError`
inside `json.loads`) is caught and skipped.  Afterwards a `summary_submitted`
event is sent and the one-shot summary event is set. -/
def handleSubmitFormSummary (jsonLoads : String → Option JVal) (mem : ConsumerMem)
    (args : Dict) : ConsumerMem × List ClientEvent :=
  let d :=
    match fc_json_of args with
    | .jstr s =>
      match jsonLoads s with
      | some (.jobj fields) => dictUpdate mem.collected_data fields
      | _ => mem.collected_data
    | _ => mem.collected_data
  ({ mem with collected_data := d, summary_event := true },
   [.summary_submitted (summary_text_of args) d])

/-- The tool-call dispatch of `receive_audio_from_gemini`
(`live_consumer.py:349-387`), over an already-normalized call. -/
def handleToolCall (jsonLoads : String → Option JVal) (total_fields : Nat)
    (mem : ConsumerMem) (name : String) (args : Dict) : ConsumerMem × List ClientEvent :=
  if name = "save_field" then handleSaveField total_fields mem args
  else if name = "submit_form_summary" then handleSubmitFormSummary jsonLoads mem args
  else if name = "complete_form" then ({ mem with completion_requested := true }, [])
  else (mem, [])

/-- Fold a sequence of `save_field` calls (their argument dicts, in order)
through the handler. -/
def runSaveFields (total_fields : Nat) (mem : ConsumerMem) (calls : List Dict) : ConsumerMem :=
  calls.foldl (fun m args => (handleSaveField total_fields m args).1) mem

/-- Specification-side description of a `save_field` sequence: the value of the
last call in `calls` that writes field `k`, if any. -/
def lastSaved (calls : List Dict) (k : String) : Option JVal :=
  match calls with
  | [] => none
  | args :: rest =>
    match lastSaved rest k with
    | some v => some v
    | none =>
      match extract_field_name args with
      | some s => if s = k then some (saveValue args) else none
      | none => none

/-- Specification-side description of `dict.update`: the value of the last pair
in `p` with key `k`, if any. -/
def lastPair (p : List (String × JVal)) (k : String) : Option JVal :=
  match p with
  | [] => none
  | kv :: rest =>
    match lastPair rest k with
    | some v => some v
    | none => if kv.1 = k then some kv.2 else none

/-- Silence-detection state of `LiveAudioConsumer` (`live_consumer.py:57-67`):
timestamps in milliseconds of monotonic time. -/
structure SilenceState where
  speech_detected : Bool
  last_sound : Option Nat
  last_client_audio : Option Nat
  last_ai_audio : Option Nat
  triggered : Bool

/-- State at `connect`. -/
def initSilenceState : SilenceState :=
  { speech_detected := false, last_sound := none, last_client_audio := none,
    last_ai_audio := none, triggered := false }

/-- `self._silence_threshold_abs = 120`. -/
def silence_threshold_abs : Nat := 120

/-- `self._silence_timeout_ms = 6500`. -/
def silence_timeout_ms : Nat := 6500

/-- The mean-absolute-amplitude sum of a 16-bit PCM frame
(`live_consumer.py:121`): `sum(1 if v == -32768 else abs(v) for v in pcm)`. -/
def sumAbsFrame (frame : List Int) : Nat :=
  (frame.map (fun v => if v = -32768 then 1 else v.natAbs)).sum

/-- A frame whose mean absolute amplitude reaches the threshold:
`sum / len ≥ 120`, stated without the (exact up to float rounding) division. -/
def isSpeechFrame (frame : List Int) : Bool :=
  !frame.isEmpty && decide (silence_threshold_abs * frame.length ≤ sumAbsFrame frame)

/-- The silence-detector update of `LiveAudioConsumer.receive`
(`live_consumer.py:115-129`) on one binary frame arriving at time `now`:
speech energy updates `last_sound`, sets `speech_detected` and counts as client
audio; a quiet frame initializes `last_sound` only when it was never set. -/
def receive_audio_frame (s : SilenceState) (frame : List Int) (now : Nat) : SilenceState :=
  if frame.isEmpty then s
  else if silence_threshold_abs * frame.length ≤ sumAbsFrame frame then
    { s with last_sound := some now, speech_detected := true, last_client_audio := some now }
  else if s.last_sound.isNone then { s with last_sound := some now }
  else s

/-- The update at `live_consumer.py:280`: each audio chunk from the AI backend
refreshes `_last_ai_audio_monotonic`. -/
def ai_audio_received (s : SilenceState) (now : Nat) : SilenceState :=
  { s with last_ai_audio := some now }

/-- One iteration of `LiveAudioConsumer._monitor_silence`
(`live_consumer.py:415-432`): whether the poll at time `now` decides to
trigger completion.  Mirrors the loop body: an already-triggered monitor does
nothing, no decision before any speech was detected, `client_gap_ms` falls back
to `silent_ms` when no raw client audio was timestamped, and the AI gap is
measured against `_last_ai_audio_monotonic or 0`. -/
def monitor_should_fire (s : SilenceState) (now : Nat) : Bool :=
  if s.triggered then false
  else if !s.speech_detected then false
  else
    match s.last_sound with
    | none => false
    | some ls =>
      let silent_ms := now - ls
      let client_gap_ms :=
        match s.last_client_audio with
        | some lc => now - lc
        | none => silent_ms
      let ai_gap_ms := now - s.last_ai_audio.getD 0
      decide (silence_timeout_ms ≤ silent_ms) && decide (silence_timeout_ms ≤ client_gap_ms) &&
        decide (1500 < ai_gap_ms)

/-- The state right after a speech-energy frame at t = 0 in a fresh session. -/
def speechAtZero : SilenceState :=
  { speech_detected := true, last_sound := some 0, last_client_audio := some 0,
    last_ai_audio := none, triggered := false }

/-- Audio arrivals that touch the silence state: raw client frames and AI
backend audio chunks. -/
inductive AudioEvent where
  | client (frame : List Int) (t : Nat)
  | ai (t : Nat)

/-- Apply one audio event to the silence state. -/
def audio_step (s : SilenceState) : AudioEvent → SilenceState
  | .client f t => receive_audio_frame s f t
  | .ai t => ai_audio_received s t

/-- Fold a whole session's audio arrivals through the silence state. -/
def runAudioEvents (s : SilenceState) (evs : List AudioEvent) : SilenceState :=
  evs.foldl audio_step s

/-- The persisted `MagicLinkSession` fields touched by completion
(`models.py:95-166`).  Timestamps in milliseconds. -/
structure SessionRecord where
  status : String
  collected_data : Dict
  conversation_history : List (String × String)
  summary_text : String
  started_at : Option Nat
  completed_at : Option Nat
  duration_seconds : Option Nat

/-- `LiveAudioConsumer.save_conversation` (`live_consumer.py:666-674`). -/
def save_conversation (rec : SessionRecord) (history : List (String × String)) : SessionRecord :=
  { rec with conversation_history := history }

/-- `LiveAudioConsumer.save_summary_text` (`live_consumer.py:676-684`). -/
def save_summary_text (rec : SessionRecord) (summary : String) : SessionRecord :=
  { rec with summary_text := summary }

/-- `LiveAudioConsumer.mark_session_completed` (`live_consumer.py:686-697`):
set status and completion time, and write the in-memory collected data only when
the stored dict is empty (`if not session.collected_data:`).  It does not touch
`duration_seconds`. -/
def mark_session_completed (rec : SessionRecord) (mem_collected : Dict) (now : Nat) :
    SessionRecord :=
  { rec with
    status := "completed", completed_at := some now,
    collected_data := if rec.collected_data.isEmpty then mem_collected else rec.collected_data }

/-- `MagicLinkSession.mark_completed` (`models.py:160-166`), which does compute
`duration_seconds` — defined here for contrast: nothing in the live completion
path (`handle_completion`) calls it. -/
def mark_completed (rec : SessionRecord) (now : Nat) : SessionRecord :=
  { rec with
    status := "completed", completed_at := some now,
    duration_seconds :=
      match rec.started_at with
      | some st => some ((now - st) / 1000)
      | none => rec.duration_seconds }

/-- The persistence performed by `LiveAudioConsumer.handle_completion`
(`live_consumer.py:581-664`): save the conversation, save the computed summary
(the summary itself comes from the external extraction service and is passed in
here), then `mark_session_completed`. -/
def handle_completion_persist (rec : SessionRecord) (history : List (String × String))
    (summary : String) (mem_collected : Dict) (now : Nat) : SessionRecord :=
  mark_session_completed (save_summary_text (save_conversation rec history) summary)
    mem_collected now

/-- `MagicLinkSession.get_completion_percentage` (`models.py:188-193`), with the
division modelled as fallible (`none` standing for `ZeroDivisionError`): the
method guards `total_fields == 0` before dividing. -/
def checkedDiv (a b : Nat) : Option Nat := if b = 0 then none else some (a / b)

/-- `get_completion_percentage`: `0` for an empty schema, otherwise
`int(fields_completed / total_fields * 100)`. -/
def get_completion_percentage (fields_completed total_fields : Nat) : Option Nat :=
  if total_fields = 0 then some 0 else checkedDiv (fields_completed * 100) total_fields

/-- Outcome of one execution of the `send_webhook` task when the HTTP request
does not succeed with a status < 400 (`tasks.py:107-137`). -/
inductive WebhookOutcome where
  | delivered (status_code : Nat)
  | retryScheduled (countdown_seconds : Nat)
  | terminalFailure
deriving DecidableEq, Repr

/-- `countdown = 300 * (3 ** (attempt_number - 1))` (`tasks.py:129`). -/
def webhook_retry_countdown (attempt_number : Nat) : Nat := 300 * 3 ^ (attempt_number - 1)

/-- The retry decision of a failing `send_webhook` execution (`tasks.py:126-137`):
schedule a retry with exponential backoff while `attempt_number < max_retries`,
otherwise report terminal failure (the task returns a `success: False` result
and raises nothing further). -/
def send_webhook_failing (attempt_number max_retries : Nat) : WebhookOutcome :=
  if attempt_number < max_retries then .retryScheduled (webhook_retry_countdown attempt_number)
  else .terminalFailure

/-- How a chain of executions of an always-failing `send_webhook` ends. -/
inductive RunEnd where
  | returnedFailure
  | raisedException
deriving DecidableEq, Repr

/-- The chain of executions when every attempt fails, under Celery's actual
retry semantics: `raise self.retry(exc=exc, countdown=...)` (`tasks.py:130`)
re-enqueues the task with its *original* arguments, so the `attempt_number`
keyword never changes across executions; the retry budget is the decorator's
`max_retries` (`@shared_task(bind=True, max_retries=3)`, `tasks.py:17`),
tracked in `request.retries` (the `r` argument, starting at 0), and once
`r + 1` exceeds it, `retry` re-raises the passed exception instead of
scheduling, so that execution's task fails with the exception.  Each list
entry is one execution: the `attempt_number` it logs and the countdown of the
retry it schedules (`none` when nothing further is scheduled).  Fuel bounds
the recursion; `webhookCeleryRun` supplies enough. -/
def celeryRetryChain (decorator_max_retries attempt_number max_retries_setting : Nat) :
    Nat → Nat → List (Nat × Option Nat) × RunEnd
  | 0, _ => ([], .raisedException)
  | fuel + 1, r =>
    match send_webhook_failing attempt_number max_retries_setting with
    | .retryScheduled c =>
      if decorator_max_retries < r + 1 then ([(attempt_number, none)], .raisedException)
      else
        let rest :=
          celeryRetryChain decorator_max_retries attempt_number max_retries_setting fuel (r + 1)
        ((attempt_number, some c) :: rest.1, rest.2)
    | _ => ([(attempt_number, none)], .returnedFailure)

/-- The delivery chain as the program actually runs it: the only callers invoke
`send_webhook.delay(session_id)` (`live_consumer.py:709`, `views.py:174`), so
`attempt_number` keeps its default 1 on every execution; the decorator's
`max_retries` is 3, the `WEBHOOK_RETRY_ATTEMPTS` settings default is 3, and
`request.retries` starts at 0. -/
def webhookCeleryRun : List (Nat × Option Nat) × RunEnd :=
  celeryRetryChain 3 1 3 8 0

/-- 2^32, the word modulus of SHA-256 arithmetic. -/
def w32 : Nat := 4294967296

/-- Right rotation of a 32-bit word. -/
def rotr32 (n x : Nat) : Nat := ((x >>> n) ||| (x <<< (32 - n))) % w32

/-- The SHA-256 round constants. -/
def shaK : List Nat :=
  [1116352408, 1899447441, 3049323471, 3921009573, 961987163, 1508970993,
   2453635748, 2870763221, 3624381080, 310598401, 607225278, 1426881987,
   1925078388, 2162078206, 2614888103, 3248222580, 3835390401, 4022224774,
   264347078, 604807628, 770255983, 1249150122, 1555081692, 1996064986,
   2554220882, 2821834349, 2952996808, 3210313671, 3336571891, 3584528711,
   113926993, 338241895, 666307205, 773529912, 1294757372, 1396182291,
   1695183700, 1986661051, 2177026350, 2456956037, 2730485921, 2820302411,
   3259730800, 3345764771, 3516065817, 3600352804, 4094571909, 275423344,
   430227734, 506948616, 659060556, 883997877, 958139571, 1322822218,
   1537002063, 1747873779, 1955562222, 2024104815, 2227730452, 2361852424,
   2428436474, 2756734187, 3204031479, 3329325298]

/-- Big-endian byte decomposition of `n` into `count` bytes. -/
def beBytes (count n : Nat) : List Nat :=
  (List.range count).reverse.map (fun i => (n >>> (8 * i)) % 256)

/-- SHA-256 message padding: `0x80`, zeros to 56 mod 64, 64-bit bit length. -/
def padMessage (msg : List Nat) : List Nat :=
  let len := msg.length
  let r := (len + 1) % 64
  let zeros := (56 + 64 - r) % 64
  msg ++ [0x80] ++ List.replicate zeros 0 ++ beBytes 8 (8 * len)

/-- Big-endian bytes to 32-bit words. -/
def bytesToWords : List Nat → List Nat
  | a :: b :: c :: d :: rest => (a * 16777216 + b * 65536 + c * 256 + d) :: bytesToWords rest
  | _ => []

/-- The 64-word message schedule of one block, most recent word first. -/
def scheduleRev (block : List Nat) : List Nat :=
  (List.range 48).foldl
    (fun rw _ =>
      let s0 := (rotr32 7 (rw.getD 14 0)) ^^^ (rotr32 18 (rw.getD 14 0)) ^^^ ((rw.getD 14 0) >>> 3)
      let s1 := (rotr32 17 (rw.getD 1 0)) ^^^ (rotr32 19 (rw.getD 1 0)) ^^^ ((rw.getD 1 0) >>> 10)
      ((s1 + rw.getD 6 0 + s0 + rw.getD 15 0) % w32) :: rw)
    block.reverse

/-- The eight 32-bit working variables of the SHA-256 compression function. -/
structure Hash8 where
  a : Nat
  b : Nat
  c : Nat
  d : Nat
  e : Nat
  f : Nat
  g : Nat
  h : Nat

/-- The SHA-256 initial hash value. -/
def shaH0 : Hash8 :=
  ⟨1779033703, 3144134277, 1013904242, 2773480762,
   1359893119, 2600822924, 528734635, 1541459225⟩

/-- One SHA-256 block compression. -/
def compressBlock (hv : Hash8) (block : List Nat) : Hash8 :=
  let ws := (scheduleRev block).reverse
  let fin := (shaK.zip ws).foldl
    (fun st kw =>
      let ch := (st.e &&& st.f) ^^^ ((st.e ^^^ 0xffffffff) &&& st.g)
      let maj := (st.a &&& st.b) ^^^ (st.a &&& st.c) ^^^ (st.b &&& st.c)
      let bs0 := (rotr32 2 st.a) ^^^ (rotr32 13 st.a) ^^^ (rotr32 22 st.a)
      let bs1 := (rotr32 6 st.e) ^^^ (rotr32 11 st.e) ^^^ (rotr32 25 st.e)
      let t1 := (st.h + bs1 + ch + kw.1 + kw.2) % w32
      let t2 := (bs0 + maj) % w32
      ⟨(t1 + t2) % w32, st.a, st.b, st.c, (st.d + t1) % w32, st.e, st.f, st.g⟩)
    hv
  ⟨(hv.a + fin.a) % w32, (hv.b + fin.b) % w32, (hv.c + fin.c) % w32, (hv.d + fin.d) % w32,
   (hv.e + fin.e) % w32, (hv.f + fin.f) % w32, (hv.g + fin.g) % w32, (hv.h + fin.h) % w32⟩

/-- SHA-256 of a byte sequence (each entry < 256), as 32 digest bytes. -/
def sha256 (msg : List Nat) : List Nat :=
  let ws := bytesToWords (padMessage msg)
  let nblocks := ws.length / 16
  let hv := (List.range nblocks).foldl
    (fun hv i => compressBlock hv ((ws.drop (16 * i)).take 16)) shaH0
  beBytes 4 hv.a ++ beBytes 4 hv.b ++ beBytes 4 hv.c ++ beBytes 4 hv.d ++
  beBytes 4 hv.e ++ beBytes 4 hv.f ++ beBytes 4 hv.g ++ beBytes 4 hv.h

/-- A lowercase hexadecimal digit. -/
def hexDigit (n : Nat) : Char := Char.ofNat (if n < 10 then 48 + n else 87 + n)

/-- `.hexdigest()`: lowercase hex of a byte sequence. -/
def bytesToHex (bs : List Nat) : String :=
  String.mk (bs.flatMap (fun b => [hexDigit (b / 16), hexDigit (b % 16)]))

/-- `hmac.new(key, msg, hashlib.sha256).digest()` (RFC 2104, block size 64). -/
def hmacSha256 (key msg : List Nat) : List Nat :=
  let k0 := if 64 < key.length then sha256 key else key
  let k := k0 ++ List.replicate (64 - k0.length) 0
  sha256 ((k.map (fun b => b ^^^ 0x5c)) ++ sha256 ((k.map (fun b => b ^^^ 0x36)) ++ msg))

/-- `str.encode()`: UTF-8 bytes of a string. -/
def utf8Bytes (s : String) : List Nat :=
  s.data.flatMap (fun c =>
    let n := c.toNat
    if n < 0x80 then [n]
    else if n < 0x800 then [0xc0 + n / 64, 0x80 + n % 64]
    else if n < 0x10000 then [0xe0 + n / 4096, 0x80 + (n / 64) % 64, 0x80 + n % 64]
    else [0xf0 + n / 262144, 0x80 + (n / 4096) % 64, 0x80 + (n / 64) % 64, 0x80 + n % 64])

/-- Code-point-wise comparison of character lists, Python string `<=`. -/
def charsLe : List Char → List Char → Bool
  | [], _ => true
  | _ :: _, [] => false
  | a :: as, b :: bs =>
    if a.toNat < b.toNat then true
    else if b.toNat < a.toNat then false
    else charsLe as bs

/-- Python `s1 <= s2` on strings. -/
def strLe (a b : String) : Bool := charsLe a.data b.data

/-- Key order used by `json.dumps(..., sort_keys=True)` on dict items. -/
def keyLe (a b : String × JVal) : Prop := strLe a.1 b.1 = true

instance keyLeDecidable : DecidableRel keyLe :=
  fun a b => instDecidableEqBool (strLe a.1 b.1) true

/-- `sorted(d.items())` by key. -/
def sortFields (fs : List (String × JVal)) : List (String × JVal) := List.insertionSort keyLe fs

/-- Four lowercase hex digits. -/
def hex4 (n : Nat) : String :=
  String.mk [hexDigit (n / 4096 % 16), hexDigit (n / 256 % 16), hexDigit (n / 16 % 16),
    hexDigit (n % 16)]

/-- JSON string escaping as produced by `json.dumps` with its default
`ensure_ascii=True`: quote and backslash escaped, the short control escapes,
`\u`-escapes (with surrogate pairs beyond the BMP) for everything else outside
the printable ASCII range. -/
def escChar (c : Char) : String :=
  let n := c.toNat
  if c = '"' then "\\\""
  else if c = '\\' then "\\\\"
  else if n = 10 then "\\n"
  else if n = 13 then "\\r"
  else if n = 9 then "\\t"
  else if n = 8 then "\\b"
  else if n = 12 then "\\f"
  else if n < 32 ∨ 126 < n then
    if n < 65536 then "\\u" ++ hex4 n
    else "\\u" ++ hex4 (55296 + (n - 65536) / 1024) ++ "\\u" ++ hex4 (56320 + (n - 65536) % 1024)
  else String.mk [c]

/-- A JSON string literal. -/
def encStr (s : String) : String := "\"" ++ String.join (s.data.map escChar) ++ "\""

/-- Serialization of a value as `json.dumps(v, sort_keys=True)` produces it
(default separators, keys sorted at every level).  The fuel argument only bounds
the recursion depth; CPython's own recursion limit caps `json.dumps` near the
same depth. -/
def serAux : Nat → JVal → String
  | 0, _ => ""
  | fuel + 1, v =>
    match v with
    | .jnull => "null"
    | .jbool b => if b then "true" else "false"
    | .jint n => toString n
    | .jstr s => encStr s
    | .jarr xs => "[" ++ String.intercalate ", " (xs.map (serAux fuel)) ++ "]"
    | .jobj fs =>
      "\x7b" ++ String.intercalate ", "
        ((sortFields fs).map (fun p => encStr p.1 ++ ": " ++ serAux fuel p.2)) ++ "\x7d"

/-- `json.dumps(v, sort_keys=True)`. -/
def jsonDumpsSorted (v : JVal) : String := serAux 1000 v

/-- `generate_webhook_signature` (`tasks.py:140-157`): HMAC-SHA256 of the
key-sorted JSON serialization of the payload, keyed by the form's webhook
secret, rendered as the string the `X-VoiceForm-Signature` header carries. -/
def generate_webhook_signature (payload : List (String × JVal)) (secret : String) : String :=
  "sha256=" ++ bytesToHex (hmacSha256 (utf8Bytes secret) (utf8Bytes (jsonDumpsSorted (.jobj payload))))

/-- A concrete webhook payload with the exact shape `send_webhook` builds
(`tasks.py:33-49`). -/
def samplePayload : List (String × JVal) :=
  [("form_id", .jstr "f_abc123"),
   ("session_id", .jstr "s_xyz789"),
   ("completed_at", .jstr "2026-01-01T00:00:00+00:00"),
   ("data", .jobj [("satisfaction", .jint 8), ("name", .jstr "Bob")]),
   ("metadata", .jobj
     [("duration_seconds", .jint 42),
      ("completion_percentage", .jint 100),
      ("fields_completed", .jint 2),
      ("total_fields", .jint 2),
      ("session_data", .jobj []),
      ("conversation_metrics", .jobj
        [("total_interactions", .jint 3), ("retry_count", .jint 0)])])]

/-- `samplePayload` with a single byte of the data changed: `satisfaction` 9
instead of 8. -/
def samplePayloadOneByteChanged : List (String × JVal) :=
  [("form_id", .jstr "f_abc123"),
   ("session_id", .jstr "s_xyz789"),
   ("completed_at", .jstr "2026-01-01T00:00:00+00:00"),
   ("data", .jobj [("satisfaction", .jint 9), ("name", .jstr "Bob")]),
   ("metadata", .jobj
     [("duration_seconds", .jint 42),
      ("completion_percentage", .jint 100),
      ("fields_completed", .jint 2),
      ("total_fields", .jint 2),
      ("session_data", .jobj []),
      ("conversation_metrics", .jobj
        [("total_interactions", .jint 3), ("retry_count", .jint 0)])])]

instance keyLeTotal : IsTotal (String × JVal) keyLe := by
  constructor
  intro a b
  show charsLe a.1.data b.1.data = true ∨ charsLe b.1.data a.1.data = true
  generalize a.1.data = xs
  generalize b.1.data = ys
  induction xs generalizing ys with
  | nil => left; rfl
  | cons c cs ih =>
    cases ys with
    | nil => right; rfl
    | cons d ds =>
      simp only [charsLe]
      rcases Nat.lt_trichotomy c.toNat d.toNat with h | h | h
      · left; simp [h]
      · rcases ih ds with h' | h' <;> [left; right] <;> simp [h, h']
      · right; simp [h, Nat.lt_asymm h]

instance keyLeTrans : IsTrans (String × JVal) keyLe := by
  constructor
  intro a b c
  show charsLe a.1.data b.1.data = true → charsLe b.1.data c.1.data = true →
    charsLe a.1.data c.1.data = true
  generalize a.1.data = xs
  generalize b.1.data = ys
  generalize c.1.data = zs
  intro hab hbc
  induction xs generalizing ys zs with
  | nil => rfl
  | cons x xs ih =>
    cases ys with
    | nil => simp [charsLe] at hab
    | cons y ys =>
      cases zs with
      | nil => simp [charsLe] at hbc
      | cons z zs =>
        simp only [charsLe] at hab hbc ⊢
        split at hab
        · next hxy =>
          split at hbc
          · next hyz => simp [Nat.lt_trans hxy hyz]
          · next hyz =>
            split at hbc
            · simp at hbc
            · next hzy =>
              simp [show x.toNat < z.toNat by omega]
        · next hxy =>
          split at hab
          · simp at hab
          · next hyx =>
            split at hbc
            · next hyz => simp [show x.toNat < z.toNat by omega]
            · next hyz =>
              split at hbc
              · simp at hbc
              · next hzy =>
                have h1 : ¬ x.toNat < z.toNat := by omega
                have h2 : ¬ z.toNat < x.toNat := by omega
                simp [h1, h2]
                exact ih _ _ hab hbc

theorem charsLe_antisymm {a b : List Char} (hab : charsLe a b = true) (hba : charsLe b a = true) :
    a = b := by
  induction a generalizing b with
  | nil =>
    cases b with
    | nil => rfl
    | cons d ds => simp [charsLe] at hba
  | cons c cs ih =>
    cases b with
    | nil => simp [charsLe] at hab
    | cons d ds =>
      simp only [charsLe] at hab hba
      split at hab
      · next h => simp [Nat.lt_asymm h] at hba; omega
      · next h =>
        split at hab
        · simp at hab
        · next h' =>
          have hcd : c.toNat = d.toNat := by omega
          have hc : c = d := by
            have h1 := Char.ofNat_toNat c
            have h2 := Char.ofNat_toNat d
            rw [← h1, ← h2, hcd]
          subst hc
          simp [show ¬ c.toNat < c.toNat by omega] at hba
          rw [ih hab hba]

theorem strLe_antisymm {a b : String} (hab : strLe a b = true) (hba : strLe b a = true) :
    a = b := by
  cases a; cases b
  exact congrArg String.mk (charsLe_antisymm hab hba)

theorem sortFields_eq_of_perm {p₁ p₂ : List (String × JVal)} (hp : p₁.Perm p₂)
    (hn : (p₁.map Prod.fst).Nodup) : sortFields p₁ = sortFields p₂ := by
  have hperm : (sortFields p₁).Perm (sortFields p₂) :=
    (List.perm_insertionSort keyLe p₁).trans (hp.trans (List.perm_insertionSort keyLe p₂).symm)
  have hs₁ : (sortFields p₁).Sorted keyLe := List.sorted_insertionSort keyLe p₁
  have hs₂ : (sortFields p₂).Sorted keyLe := List.sorted_insertionSort keyLe p₂
  have hn₁ : ((sortFields p₁).map Prod.fst).Nodup :=
    hn.perm ((List.perm_insertionSort keyLe p₁).map Prod.fst).symm
  set r := fun a b : String × JVal => keyLe a b ∧ a.1 ≠ b.1 with hr
  have hps₁ : (sortFields p₁).Pairwise r := by
    refine (List.pairwise_and_iff).2 ⟨hs₁, ?_⟩
    exact List.pairwise_map.mp hn₁
  have hps₂ : (sortFields p₂).Pairwise r := by
    have hn₂ : ((sortFields p₂).map Prod.fst).Nodup :=
      (hn.perm (hp.map Prod.fst)).perm ((List.perm_insertionSort keyLe p₂).map Prod.fst).symm
    refine (List.pairwise_and_iff).2 ⟨hs₂, ?_⟩
    exact List.pairwise_map.mp hn₂
  haveI : IsAntisymm (String × JVal) r := ⟨by
    rintro ⟨a1, a2⟩ ⟨b1, b2⟩ ⟨hab, hne⟩ ⟨hba, _⟩
    exact absurd (strLe_antisymm hab hba) hne⟩
  exact List.eq_of_perm_of_sorted hperm hps₁ hps₂

theorem serAux_obj_congr (fuel : Nat) {p₁ p₂ : List (String × JVal)}
    (h : sortFields p₁ = sortFields p₂) :
    serAux (fuel + 1) (.jobj p₁) = serAux (fuel + 1) (.jobj p₂) := by
  simp [serAux, h]

theorem dictGet_insert_self (d : Dict) (k : String) (v : JVal) :
    dictGet (dictInsert d k v) k = some v := by
  induction d with
  | nil => simp [dictInsert, dictGet]
  | cons kv rest ih =>
    by_cases h : kv.1 = k
    · simp [dictInsert, dictGet, h]
    · simp [dictInsert, dictGet, h, ih]

theorem dictGet_insert_ne (d : Dict) {k k' : String} (v : JVal) (h : k' ≠ k) :
    dictGet (dictInsert d k v) k' = dictGet d k' := by
  have h' : ¬ (k = k') := fun hk => h hk.symm
  induction d with
  | nil => simp [dictInsert, dictGet, h']
  | cons kv rest ih =>
    by_cases hk : kv.1 = k
    · simp [dictInsert, dictGet, hk, h']
    · simp only [dictInsert, if_neg hk, dictGet]
      by_cases hk' : kv.1 = k' <;> simp [hk', ih]

theorem mem_dictKeys_iff (d : Dict) (k : String) :
    k ∈ dictKeys d ↔ (dictGet d k).isSome = true := by
  induction d with
  | nil => simp [dictKeys, dictGet]
  | cons kv rest ih =>
    by_cases h : kv.1 = k
    · simp [dictKeys, dictGet, h]
    · have h' : ¬ (k = kv.1) := fun hk => h hk.symm
      simp only [dictKeys, List.map_cons, List.mem_cons, dictGet, if_neg h]
      rw [← dictKeys]
      simp [ih, h']

theorem runSaveFields_get (t : Nat) (calls : List Dict) : ∀ (mem : ConsumerMem) (k : String),
    dictGet (runSaveFields t mem calls).collected_data k =
      match lastSaved calls k with
      | some v => some v
      | none => dictGet mem.collected_data k := by
  induction calls with
  | nil => intro mem k; rfl
  | cons args rest ih =>
    intro mem k
    have hstep : runSaveFields t mem (args :: rest) =
        runSaveFields t (handleSaveField t mem args).1 rest := rfl
    rw [hstep, ih]
    cases hL : lastSaved rest k with
    | some v => simp [lastSaved, hL]
    | none =>
      simp only [lastSaved, hL]
      cases hE : extract_field_name args with
      | none => simp [handleSaveField, hE]
      | some s =>
        simp only [handleSaveField, hE]
        by_cases hsk : s = k
        · subst hsk; simp [dictGet_insert_self]
        · simp [hsk, dictGet_insert_ne _ _ (fun h => hsk h.symm)]

theorem dictUpdate_get (p : List (String × JVal)) : ∀ (d : Dict) (k : String),
    dictGet (dictUpdate d p) k =
      match lastPair p k with
      | some v => some v
      | none => dictGet d k := by
  induction p with
  | nil => intro d k; rfl
  | cons kv rest ih =>
    intro d k
    have hstep : dictUpdate d (kv :: rest) = dictUpdate (dictInsert d kv.1 kv.2) rest := rfl
    rw [hstep, ih]
    cases hL : lastPair rest k with
    | some v => simp [lastPair, hL]
    | none =>
      simp only [lastPair, hL]
      by_cases hk : kv.1 = k
      · subst hk; simp [dictGet_insert_self]
      · simp [hk, dictGet_insert_ne _ _ (fun h => hk h.symm)]

theorem speech_detected_runAudioEvents (evs : List AudioEvent) :
    ∀ (s : SilenceState), (∀ f t, AudioEvent.client f t ∈ evs → isSpeechFrame f = false) →
      s.speech_detected = false → (runAudioEvents s evs).speech_detected = false := by
  induction evs with
  | nil => intro s _ hs; exact hs
  | cons ev rest ih =>
    intro s hq hs
    have hstep : runAudioEvents s (ev :: rest) = runAudioEvents (audio_step s ev) rest := rfl
    rw [hstep]
    refine ih _ (fun f t hm => hq f t (List.mem_cons_of_mem _ hm)) ?_
    cases ev with
    | ai t => simpa [audio_step, ai_audio_received] using hs
    | client f t =>
      have hf : isSpeechFrame f = false := hq f t (List.mem_cons_self _ _)
      simp only [audio_step, receive_audio_frame]
      by_cases he : f.isEmpty
      · simp [he, hs]
      · have hnf : ¬ (silence_threshold_abs * f.length ≤ sumAbsFrame f) := by
          simpa [isSpeechFrame, he] using hf
        simp only [he, if_false, if_neg hnf, Bool.false_eq_true]
        by_cases hn : s.last_sound.isNone = true <;> simp [hn, hs]

theorem monitor_no_speech (s : SilenceState) (h : s.speech_detected = false) (now : Nat) :
    monitor_should_fire s now = false := by
  simp [monitor_should_fire, h]

/-- C1, counterexample: the claim "collectedData never contains a key that is
not a field name of the session's FormSchema" is false.  With a schema whose
only field is `satisfaction`, a single `save_field` call for the name
`not_in_schema` puts exactly that key into `collected_data`: the handler never
consults the schema. -/
theorem c1_counterexample :
    dictKeys (runSaveFields 1 initConsumerMem
        [[("field_name", JVal.jstr "not_in_schema"), ("value", JVal.jint 8)]]).collected_data
      = ["not_in_schema"] ∧
    "not_in_schema" ∉ ["satisfaction"] := by
  refine ⟨rfl, by decide⟩

/-- C1 (amended): for every sequence of `save_field` tool calls handled in one
session, the final `collectedData` maps each field name to the value of the
last call that wrote it (last-write-wins), and its keys are exactly the field
names of the processed calls — the handler performs no check of those names
against the `FormSchema`, so nothing confines the keys to schema field names. -/
theorem c1_save_field_last_write_wins (total_fields : Nat) (calls : List Dict) (k : String) :
    dictGet (runSaveFields total_fields initConsumerMem calls).collected_data k
        = lastSaved calls k ∧
    (k ∈ dictKeys (runSaveFields total_fields initConsumerMem calls).collected_data ↔
      (lastSaved calls k).isSome = true) := by
  have h := runSaveFields_get total_fields calls initConsumerMem k
  have h' : dictGet (runSaveFields total_fields initConsumerMem calls).collected_data k
      = lastSaved calls k := by
    rw [h]; cases lastSaved calls k <;> rfl
  exact ⟨h', by rw [mem_dictKeys_iff, h']⟩

/-- C2, counterexample: the claim "merging the summary mapping does not
overwrite any field previously set by save_field" is false.  `save_field`
stores `a = 1`; a `submit_form_summary` whose JSON text parses to the mapping
`a = 2` leaves `collected_data['a'] = 2` — `dict.update` overwrites. -/
theorem c2_counterexample :
    dictGet ((handleSaveField 1 initConsumerMem
        [("field_name", JVal.jstr "a"), ("value", JVal.jint 1)]).1.collected_data) "a"
      = some (JVal.jint 1) ∧
    dictGet ((handleSubmitFormSummary
        (fun s => if s = "\x7b\"a\": 2\x7d" then some (.jobj [("a", .jint 2)]) else none)
        (handleSaveField 1 initConsumerMem
          [("field_name", JVal.jstr "a"), ("value", JVal.jint 1)]).1
        [("function_call_json_text", JVal.jstr "\x7b\"a\": 2\x7d")]).1.collected_data) "a"
      = some (JVal.jint 2) ∧
    ¬ (some (JVal.jint 2) = some (JVal.jint 1)) := by
  refine ⟨rfl, rfl, ?_⟩
  intro h
  injection h with h'
  injection h' with h''
  omega

/-- C2 (amended): for every `submit_form_summary` call whose
`function_call_json_text` parses to a field→value mapping, the mapping is
merged with `dict.update` semantics: every key of the parsed mapping receives
the summary-carried value, overwriting a value previously set via `save_field`
for the same key (the last pair wins within the mapping itself), while keys
absent from the mapping keep their previous values. -/
theorem c2_submit_summary_update (jsonLoads : String → Option JVal) (mem : ConsumerMem)
    (args : Dict) (s : String) (p : List (String × JVal)) (k : String)
    (hfc : fc_json_of args = .jstr s) (hp : jsonLoads s = some (.jobj p)) :
    dictGet (handleSubmitFormSummary jsonLoads mem args).1.collected_data k =
      match lastPair p k with
      | some v => some v
      | none => dictGet mem.collected_data k := by
  simp only [handleSubmitFormSummary, hfc, hp]
  exact dictUpdate_get p mem.collected_data k

/-- C2 witness: a field not mentioned by the summary mapping keeps its
`save_field` value. -/
theorem c2_witness :
    dictGet ((handleSubmitFormSummary
        (fun s => if s = "\x7b\"a\": 2\x7d" then some (.jobj [("a", .jint 2)]) else none)
        { collected_data := [("a", JVal.jint 1), ("b", JVal.jint 7)], summary_event := false,
          completion_requested := false }
        [("function_call_json_text", JVal.jstr "\x7b\"a\": 2\x7d")]).1.collected_data) "b"
      = some (JVal.jint 7) := by
  have h := c2_submit_summary_update
      (fun s => if s = "\x7b\"a\": 2\x7d" then some (.jobj [("a", .jint 2)]) else none)
      { collected_data := [("a", JVal.jint 1), ("b", JVal.jint 7)], summary_event := false,
        completion_requested := false }
      [("function_call_json_text", JVal.jstr "\x7b\"a\": 2\x7d")]
      "\x7b\"a\": 2\x7d" [("a", JVal.jint 2)] "b" rfl rfl
  exact h.trans rfl

/-- C4: a `submit_form_summary` call whose `function_call_json_text` does not
parse (the embedded `jsonLoads` returns `none`, the `except` path of the
source) leaves `collected_data` exactly as it was; the handler is a total
function — it completes normally, still setting the one-shot summary event, so
no exception can fail the session. -/
theorem c4_invalid_json_leaves_collected (jsonLoads : String → Option JVal)
    (mem : ConsumerMem) (args : Dict) (s : String)
    (hfc : fc_json_of args = .jstr s) (hbad : jsonLoads s = none) :
    (handleSubmitFormSummary jsonLoads mem args).1.collected_data = mem.collected_data ∧
    (handleSubmitFormSummary jsonLoads mem args).1.summary_event = true := by
  simp [handleSubmitFormSummary, hfc, hbad]

/-- C4 witness: a concrete malformed-JSON submission leaves the collected
data untouched. -/
theorem c4_witness :
    (handleSubmitFormSummary (fun _ => none)
        { collected_data := [("x", JVal.jint 1)], summary_event := false,
          completion_requested := false }
        [("function_call_json_text", JVal.jstr "not json")]).1.collected_data
      = [("x", JVal.jint 1)] :=
  (c4_invalid_json_leaves_collected (fun _ => none)
    { collected_data := [("x", JVal.jint 1)], summary_event := false,
      completion_requested := false }
    [("function_call_json_text", JVal.jstr "not json")] "not json" rfl rfl).1

/-- C9: `mark_session_completed` writes the in-memory collected data to the
stored record only when the stored `collected_data` is empty; a non-empty
stored dict is left unchanged (the merged in-memory values are then not
persisted), while `status` and `completed_at` are updated either way and every
other field — conversation history, summary text, duration — is untouched. -/
theorem c9_collected_written_only_if_empty (rec : SessionRecord) (mem_collected : Dict)
    (now : Nat) :
    (mark_session_completed rec mem_collected now).status = "completed" ∧
    (mark_session_completed rec mem_collected now).completed_at = some now ∧
    (rec.collected_data = [] →
      (mark_session_completed rec mem_collected now).collected_data = mem_collected) ∧
    (rec.collected_data ≠ [] →
      (mark_session_completed rec mem_collected now).collected_data = rec.collected_data) ∧
    (mark_session_completed rec mem_collected now).conversation_history
      = rec.conversation_history ∧
    (mark_session_completed rec mem_collected now).summary_text = rec.summary_text ∧
    (mark_session_completed rec mem_collected now).duration_seconds = rec.duration_seconds := by
  refine ⟨rfl, rfl, ?_, ?_, rfl, rfl, rfl⟩
  · intro h
    simp [mark_session_completed, h]
  · intro h
    have hie : rec.collected_data.isEmpty = false := by
      cases hcd : rec.collected_data
      · exact absurd hcd h
      · rfl
    simp [mark_session_completed, hie]

/-- C9 witness: a record whose stored dict is non-empty keeps it verbatim while
still being marked completed. -/
theorem c9_witness :
    (mark_session_completed
        { status := "active", collected_data := [("kept", JVal.jint 1)],
          conversation_history := [], summary_text := "", started_at := some 0,
          completed_at := none, duration_seconds := none }
        [("mem", JVal.jint 2)] 777).collected_data = [("kept", JVal.jint 1)] ∧
    (mark_session_completed
        { status := "active", collected_data := [("kept", JVal.jint 1)],
          conversation_history := [], summary_text := "", started_at := some 0,
          completed_at := none, duration_seconds := none }
        [("mem", JVal.jint 2)] 777).status = "completed" := by
  have h := c9_collected_written_only_if_empty
      { status := "active", collected_data := [("kept", JVal.jint 1)],
        conversation_history := [], summary_text := "", started_at := some 0,
        completed_at := none, duration_seconds := none }
      [("mem", JVal.jint 2)] 777
  exact ⟨h.2.2.2.1 (by simp), h.1⟩

/-- C10: computing the completion percentage is total.
`get_completion_percentage` returns `some 0` for a schema with zero fields
instead of reaching the division, every input yields a defined result, and the
progress event's division by `max(total_fields, 1)` likewise never takes the
`ZeroDivisionError` branch of `checkedDiv` and agrees with the total
`progressPercentage` used by the handler. -/
theorem c10_percentages_total :
    (∀ fields_completed, get_completion_percentage fields_completed 0 = some 0) ∧
    (∀ fields_completed total_fields,
        (get_completion_percentage fields_completed total_fields).isSome = true) ∧
    (∀ n total_fields,
        checkedDiv (100 * n) (max total_fields 1) = some (progressPercentage n total_fields)) := by
  refine ⟨fun _ => rfl, ?_, ?_⟩
  · intro fc t
    by_cases h : t = 0 <;> simp [get_completion_percentage, checkedDiv, h]
  · intro n t
    have h1 : 1 ≤ max t 1 := le_max_right t 1
    have h2 : max t 1 ≠ 0 := by omega
    simp [checkedDiv, progressPercentage, h2]

/-- C3, code bug: evaluated at the failing input — a webhook endpoint that
fails on every attempt, the task started as `send_webhook.delay(session_id)` —
the delivery chain performs 4 executions, not at most 3 (the first plus the
decorator's 3 retries), every scheduled retry carries the constant countdown
300 s (never the 900 s that `300·3^(n−1)` requires for the second retry,
because `attempt_number` stays 1), and the chain ends with `retry` re-raising,
so the terminal `success: False` return of `tasks.py:133` is never reached.
The claim — like the code's own comment `# Exponential backoff: 5min, 15min,
45min` and the docstring calling `attempt_number` the attempt counter —
describes the intended behaviour; the slip is that the incremented
`attempt_number` is never handed to `self.retry`. -/
theorem c3_webhook_retry_code_bug :
    webhookCeleryRun =
      ([(1, some 300), (1, some 300), (1, some 300), (1, none)], RunEnd.raisedException) ∧
    webhookCeleryRun.1.length = 4 ∧
    ¬ webhookCeleryRun.1.length ≤ 3 ∧
    (∀ p ∈ webhookCeleryRun.1, p.2 = some 300 ∨ p.2 = none) ∧
    webhookCeleryRun.2 ≠ RunEnd.returnedFailure := by
  refine ⟨rfl, rfl, by decide, by decide, by decide⟩

theorem monitor_speechAtZero_iff (t : Nat) :
    monitor_should_fire speechAtZero t = true ↔ 6500 ≤ t := by
  simp [monitor_should_fire, speechAtZero, silence_timeout_ms]
  omega

/-- C5: with speech detected at t = 0 and no further audio of any kind, the
silence monitor's trigger condition holds at a poll time exactly when 6500 ms
have elapsed — never earlier — so whatever the 250 ms-spaced poll schedule's
phase, the first firing poll lies in [6500, 6750); and in any state the
monitor fires only when the silence since last detected sound and since last
raw client audio both reach the 6500 ms timeout while the AI backend has
emitted no audio for more than 1500 ms.  (On firing, the code waits a further
grace period of up to 2 s for a pending summary before invoking completion.) -/
theorem c5_silence_fires_at_timeout (φ : Nat) (hφ : φ ≤ 250) (frame : List Int)
    (hf : isSpeechFrame frame = true) :
    receive_audio_frame initSilenceState frame 0 = speechAtZero ∧
    (∀ t, monitor_should_fire speechAtZero t = true ↔ 6500 ≤ t) ∧
    (∃ k, 6500 ≤ φ + 250 * k ∧ φ + 250 * k < 6750 ∧
      monitor_should_fire speechAtZero (φ + 250 * k) = true ∧
      ∀ j, φ + 250 * j < 6500 → monitor_should_fire speechAtZero (φ + 250 * j) = false) ∧
    (∀ s now, monitor_should_fire s now = true →
      s.triggered = false ∧ s.speech_detected = true ∧
      ∃ ls, s.last_sound = some ls ∧ silence_timeout_ms ≤ now - ls ∧
        silence_timeout_ms ≤ now - (s.last_client_audio.getD ls) ∧
        1500 < now - s.last_ai_audio.getD 0) := by
  refine ⟨?_, monitor_speechAtZero_iff, ?_, ?_⟩
  · have h12 := hf
    simp only [isSpeechFrame, Bool.and_eq_true, Bool.not_eq_true', decide_eq_true_eq] at h12
    obtain ⟨h1, h2⟩ := h12
    simp [receive_audio_frame, h1, h2, initSilenceState, speechAtZero]
  · refine ⟨(6749 - φ) / 250, by omega, by omega, ?_, ?_⟩
    · exact (monitor_speechAtZero_iff _).mpr (by omega)
    · intro j hj
      have := (monitor_speechAtZero_iff (φ + 250 * j)).not
      simp only [Bool.not_eq_true] at this
      exact this.mpr (by omega)
  · intro s now hfire
    have htr : s.triggered = false := by
      cases h : s.triggered
      · rfl
      · simp [monitor_should_fire, h] at hfire
    have hsp : s.speech_detected = true := by
      cases h : s.speech_detected
      · rw [monitor_no_speech s h now] at hfire
        exact absurd hfire (by simp)
      · rfl
    cases hls : s.last_sound with
    | none => simp [monitor_should_fire, htr, hsp, hls] at hfire
    | some ls =>
      refine ⟨htr, hsp, ls, rfl, ?_⟩
      cases hlc : s.last_client_audio with
      | none =>
        simp only [monitor_should_fire, htr, hsp, hls, hlc, Bool.not_true, if_false,
          Bool.false_eq_true, Bool.and_eq_true, decide_eq_true_eq] at hfire
        obtain ⟨⟨ha, hb⟩, hc⟩ := hfire
        exact ⟨ha, by simpa [Option.getD] using hb, hc⟩
      | some lc =>
        simp only [monitor_should_fire, htr, hsp, hls, hlc, Bool.not_true, if_false,
          Bool.false_eq_true, Bool.and_eq_true, decide_eq_true_eq] at hfire
        obtain ⟨⟨ha, hb⟩, hc⟩ := hfire
        exact ⟨ha, by simpa [Option.getD] using hb, hc⟩

/-- C5 witness: a concrete speech frame at t = 0 and the poll schedule with
phase 250 ms. -/
theorem c5_witness :
    receive_audio_frame initSilenceState [200] 0 = speechAtZero ∧
    (∃ k, 6500 ≤ 250 + 250 * k ∧ 250 + 250 * k < 6750 ∧
      monitor_should_fire speechAtZero (250 + 250 * k) = true ∧
      ∀ j, 250 + 250 * j < 6500 → monitor_should_fire speechAtZero (250 + 250 * j) = false) := by
  have h := c5_silence_fires_at_timeout 250 (by omega) [200] (by decide)
  exact ⟨h.1, h.2.2.1⟩

/-- C7: in a session where no received frame ever reaches the speech-energy
threshold (mean absolute amplitude ≥ 120), `speech_detected` stays false, so
the silence monitor's condition is false at every poll no matter how long the
session idles — including under any interleaving of quiet client frames and AI
audio chunks. -/
theorem c7_no_speech_never_fires (evs : List AudioEvent)
    (h : ∀ f t, AudioEvent.client f t ∈ evs → isSpeechFrame f = false) :
    (runAudioEvents initSilenceState evs).speech_detected = false ∧
    ∀ now, monitor_should_fire (runAudioEvents initSilenceState evs) now = false := by
  have hs := speech_detected_runAudioEvents evs initSilenceState h rfl
  exact ⟨hs, fun now => monitor_no_speech _ hs now⟩

/-- C7 witness: a quiet session — two low-energy frames, an empty frame and AI
audio — never fires, even at a poll one million milliseconds in. -/
theorem c7_witness :
    monitor_should_fire
      (runAudioEvents initSilenceState
        [AudioEvent.client [0, 5, -3] 100, AudioEvent.ai 350,
         AudioEvent.client [] 600, AudioEvent.client [119] 900]) 1000000 = false := by
  have h := c7_no_speech_never_fires
      [AudioEvent.client [0, 5, -3] 100, AudioEvent.ai 350,
       AudioEvent.client [] 600, AudioEvent.client [119] 900] ?_
  · exact h.2 1000000
  · intro f t hm
    simp only [List.mem_cons, List.not_mem_nil, or_false] at hm
    rcases hm with h1 | h1 | h1 | h1 <;> simp_all <;> decide

/-- C8, counterexample: the claim that completion "computes durationSeconds
whenever a start time was recorded" (and persists the in-memory collectedData)
is false for the live completion path: with `started_at` recorded and a
non-empty stored dict, `handle_completion_persist` leaves `duration_seconds`
at `none` — nothing in `handle_completion` calls `models.mark_completed` — and
the merged in-memory field `a` is not written. -/
theorem c8_counterexample :
    (handle_completion_persist
        { status := "active", collected_data := [("x", JVal.jstr "old")],
          conversation_history := [], summary_text := "",
          started_at := some 0, completed_at := none, duration_seconds := none }
        [("user", "hi")] "a summary" [("a", JVal.jint 8)] 100000).duration_seconds = none ∧
    dictGet (handle_completion_persist
        { status := "active", collected_data := [("x", JVal.jstr "old")],
          conversation_history := [], summary_text := "",
          started_at := some 0, completed_at := none, duration_seconds := none }
        [("user", "hi")] "a summary" [("a", JVal.jint 8)] 100000).collected_data "a" = none ∧
    (handle_completion_persist
        { status := "active", collected_data := [("x", JVal.jstr "old")],
          conversation_history := [], summary_text := "",
          started_at := some 0, completed_at := none, duration_seconds := none }
        [("user", "hi")] "a summary" [("a", JVal.jint 8)] 100000).status = "completed" :=
  ⟨rfl, rfl, rfl⟩

/-- C8 (amended): when session completion runs, the persisted record receives
the conversation history and the summary text, its status is set to completed
with `completed_at` the completion time, the in-memory collected data is
written only when the stored `collected_data` is empty, and `duration_seconds`
is left unchanged — this path never computes it, even when a start time was
recorded. -/
theorem c8_completion_persist (rec : SessionRecord) (history : List (String × String))
    (summary : String) (mem_collected : Dict) (now : Nat) :
    (handle_completion_persist rec history summary mem_collected now).conversation_history
      = history ∧
    (handle_completion_persist rec history summary mem_collected now).summary_text = summary ∧
    (handle_completion_persist rec history summary mem_collected now).status = "completed" ∧
    (handle_completion_persist rec history summary mem_collected now).completed_at = some now ∧
    (rec.collected_data = [] →
      (handle_completion_persist rec history summary mem_collected now).collected_data
        = mem_collected) ∧
    (rec.collected_data ≠ [] →
      (handle_completion_persist rec history summary mem_collected now).collected_data
        = rec.collected_data) ∧
    (handle_completion_persist rec history summary mem_collected now).duration_seconds
      = rec.duration_seconds ∧
    (handle_completion_persist rec history summary mem_collected now).started_at
      = rec.started_at := by
  refine ⟨rfl, rfl, rfl, rfl, ?_, ?_, rfl, rfl⟩
  · intro h
    simp [handle_completion_persist, mark_session_completed, save_summary_text,
      save_conversation, h]
  · intro h
    have hie : rec.collected_data.isEmpty = false := by
      cases hcd : rec.collected_data
      · exact absurd hcd h
      · rfl
    simp [handle_completion_persist, mark_session_completed, save_summary_text,
      save_conversation, hie]

/-- C8 witness: an empty stored dict receives the in-memory data and the record
is marked completed. -/
theorem c8_witness :
    (handle_completion_persist
        { status := "active", collected_data := [], conversation_history := [],
          summary_text := "", started_at := none, completed_at := none,
          duration_seconds := none }
        [("assistant", "hello")] "s" [("f", JVal.jint 1)] 5).collected_data
      = [("f", JVal.jint 1)] ∧
    (handle_completion_persist
        { status := "active", collected_data := [], conversation_history := [],
          summary_text := "", started_at := none, completed_at := none,
          duration_seconds := none }
        [("assistant", "hello")] "s" [("f", JVal.jint 1)] 5).status = "completed" := by
  have h := c8_completion_persist
      { status := "active", collected_data := [], conversation_history := [],
        summary_text := "", started_at := none, completed_at := none,
        duration_seconds := none }
      [("assistant", "hello")] "s" [("f", JVal.jint 1)] 5
  exact ⟨h.2.2.2.2.1 rfl, h.2.2.1⟩

set_option maxRecDepth 40000

/-- C6: the webhook signature is a deterministic function of the payload
mapping and the per-form secret.  Two payload dicts that are equal as mappings
(any insertion order, keys unique) yield the identical `sha256=<hex>` string,
because the signature is HMAC-SHA256 over the key-sorted JSON serialization;
and on the concrete payload of `send_webhook`'s shape, changing one byte of the
data (`satisfaction` 8 → 9) changes the signature — witnessed by evaluating the
full pipeline, since universal second-preimage resistance of HMAC-SHA256 is a
cryptographic assumption, not a provable fact. -/
theorem c6_signature_deterministic :
    (∀ (p₁ p₂ : List (String × JVal)) (secret : String), p₁.Perm p₂ →
        (p₁.map Prod.fst).Nodup →
        generate_webhook_signature p₁ secret = generate_webhook_signature p₂ secret) ∧
    generate_webhook_signature samplePayload "wh_secret" =
      "sha256=e654eb9f41b77f00f3b90415e915c490056284a02be4c7f41d688d44b52ad065" ∧
    generate_webhook_signature samplePayloadOneByteChanged "wh_secret" =
      "sha256=1816030e3939b39babf286a5a6a65955576c5ae54873a003d20eb50a99a7ea79" ∧
    generate_webhook_signature samplePayload "wh_secret" ≠
      generate_webhook_signature samplePayloadOneByteChanged "wh_secret" := by
  have h1 : generate_webhook_signature samplePayload "wh_secret" =
      "sha256=e654eb9f41b77f00f3b90415e915c490056284a02be4c7f41d688d44b52ad065" := by decide
  have h2 : generate_webhook_signature samplePayloadOneByteChanged "wh_secret" =
      "sha256=1816030e3939b39babf286a5a6a65955576c5ae54873a003d20eb50a99a7ea79" := by decide
  refine ⟨?_, h1, h2, ?_⟩
  · intro p₁ p₂ secret hp hn
    have hs : sortFields p₁ = sortFields p₂ := sortFields_eq_of_perm hp hn
    have hser : serAux 1000 (JVal.jobj p₁) = serAux 1000 (JVal.jobj p₂) :=
      serAux_obj_congr 999 hs
    simp [generate_webhook_signature, jsonDumpsSorted, hser]
  · rw [h1, h2]
    decide

/-- C6 witness: a two-field payload in either insertion order signs
identically. -/
theorem c6_witness :
    generate_webhook_signature [("b", JVal.jint 2), ("a", JVal.jstr "v")] "k" =
      generate_webhook_signature [("a", JVal.jstr "v"), ("b", JVal.jint 2)] "k" :=
  c6_signature_deterministic.1 _ _ "k"
    (List.Perm.swap ("a", JVal.jstr "v") ("b", JVal.jint 2) [])
    (by decide)
